import Mathlib

/-
Verification development for the silot `spair_video/core.py` module.

The numeric element type is modelled as `ℚ`.  TensorFlow tensors are modelled
as a shape (list of dimension sizes) together with a total valuation function
from multi-indices to rationals; operations that are elementwise in the source
become elementwise operations on the valuation.  External transcendental
floating-point kernels (`tf.math.softplus`, `tf.nn.sigmoid`, `log`) have no
exact rational counterpart and are therefore passed in as explicit function
parameters of the model, exactly like the pluggable encoder / decoder / cell
capabilities that the source receives from its configuration.

The batch axis is handled by every TensorFlow operation used in the source
either elementwise or independently per batch element (`dynamic_rnn` runs one
independent recurrence per batch element), so the video pipeline is modelled
for a single batch element: a video is a list of frames, each frame a rank-3
tensor.
-/

namespace Silot

/-- Rank-polymorphic tensor: a shape together with a valuation on indices. -/
structure Tensor where
  shape : List Nat
  val : List Nat → ℚ

/-- Flattened per-frame vector of rationals. -/
abbrev Vec := List ℚ

/-- Model of `tf.clip_by_value(x, -10, 10)`: `min(max(x, -10), 10)`. -/
def clip10 (x : ℚ) : ℚ := min (max x (-10)) 10

/-- Every multi-index of a given shape, in row-major order. -/
def allIdx : List Nat → List (List Nat)
  | [] => [[]]
  | n :: rest => (List.range n).flatMap (fun i => (allIdx rest).map (fun idx => i :: idx))

/-- Number of elements of a tensor (product of the shape). -/
def numel (t : Tensor) : Nat := t.shape.prod

/-- Model of `tf.layers.flatten` restricted to one element: the row-major
list of all entries of the tensor. -/
def flattenT (t : Tensor) : Vec := (allIdx t.shape).map t.val

/-- Row-major linear index of a multi-index within a shape. -/
def linIdx : Nat → List Nat → List Nat → Nat
  | acc, d :: ds, i :: is => linIdx (acc * d + i) ds is
  | acc, _, _ => acc

/-- Model of `tf.reshape` with the element-count precondition checked by the
caller: reinterpret the row-major contents of `t` under a new shape. -/
def reshapeVal (t : Tensor) (sh : List Nat) : Tensor :=
  ⟨sh, fun idx => (flattenT t).getD (linIdx 0 sh idx) 0⟩

/-- Model of slicing `[... , :len, ...]` along one axis: the dimension is
clamped, the valuation is unchanged (indices stay in range). -/
def sliceAxis (t : Tensor) (axis len : Nat) : Tensor :=
  ⟨t.shape.set axis (min (t.shape.getD axis 0) len), t.val⟩

/-- Elementwise map over a tensor. -/
def Tensor.mapVals (f : ℚ → ℚ) (t : Tensor) : Tensor :=
  ⟨t.shape, fun idx => f (t.val idx)⟩

/-- Elementwise combination of two same-shaped tensors. -/
def Tensor.zipVals (f : ℚ → ℚ → ℚ) (a b : Tensor) : Tensor :=
  ⟨a.shape, fun idx => f (a.val idx) (b.val idx)⟩

/-- Model of `rgb[None, None, None, :] * tf.ones_like(inp)`: numpy broadcasting
right-aligns the channel axis with the last axis of `inp`, so every entry of the
result is the channel component of `rgb` at the index's last-axis coordinate. -/
def broadcastChannels (rgb : List ℚ) (t : Tensor) : Tensor :=
  ⟨t.shape, fun idx => rgb.getD (idx.getD (t.shape.length - 1) 0) 0⟩

/-- Model of `matplotlib.colors.to_rgb` on named colours (an external library
routine; only the names the model needs, `none` models the `ValueError` raised
on an unknown colour). -/
def to_rgb : String → Option (List ℚ)
  | "red" => some [1, 0, 0]
  | "green" => some [0, 1/2, 0]
  | "blue" => some [0, 0, 1]
  | "black" => some [0, 0, 0]
  | "white" => some [1, 1, 1]
  | _ => none

/-- Modelled from the spec: `normal_vae` is defined in the external `auto_yolo`
package (imported at the top of `core.py`), not in this repository's sources.
Spec section 4.1: the sample is `mean + std ⊙ noise` with `noise` standard
normal (here an explicit argument, making the draw deterministic given the
seed), and the divergence is the closed-form Kullback-Leibler divergence
between `Normal(mean, std)` and `Normal(prior_mean, prior_std)`, elementwise.
The logarithm is the external transcendental kernel parameter `logF`. -/
def normal_vae (logF : ℚ → ℚ) (mean std prior_mean prior_std noise : ℚ) : ℚ × ℚ :=
  (mean + std * noise,
   logF (prior_std / std) + (std ^ 2 + (mean - prior_mean) ^ 2) / (2 * prior_std ^ 2) - 1 / 2)

/-- Modelled from the spec: `xent_loss` is defined in the external `auto_yolo`
package.  Spec section 4.3 step 6 calls it a per-pixel cross-entropy-style
error between reconstruction and input; modelled as the standard binary
cross entropy with the external logarithm kernel `logF`. -/
def xent_loss (logF : ℚ → ℚ) (pred label : ℚ) : ℚ :=
  -(label * logF pred + (1 - label) * logF (1 - pred))

/-! ## VideoNetwork constructor: fixed_weights / no_gradient normalization -/

/-- Token accumulator for `pySplit`: walk the characters, breaking at runs of
whitespace, emitting the finished token (accumulated in reverse). -/
def pyTokensAux : List Char → List Char → List (List Char)
  | [], acc => if acc = [] then [] else [acc.reverse]
  | c :: cs, acc =>
    if c.isWhitespace then
      (if acc = [] then pyTokensAux cs [] else acc.reverse :: pyTokensAux cs [])
    else pyTokensAux cs (c :: acc)

/-- Model of Python `str.split()` with no argument: split on runs of
whitespace, discarding empty tokens (hence also leading/trailing space). -/
def pySplit (s : String) : List String :=
  (pyTokensAux s.data []).map (fun cs => String.mk cs)

/-- A configuration value that may arrive as a single string or as a list of
component names (the `isinstance(…, str)` dispatch in `VideoNetwork.__init__`). -/
inductive StrOrList where
  | str (s : String)
  | list (l : List String)

/-- Model of lines 29-33 of `core.py`: a string-valued parameter is replaced by
the list of its whitespace-separated tokens; a list is kept as is. -/
def normalizeParam : StrOrList → List String
  | .str s => pySplit s
  | .list l => l

/-- The part of the `VideoNetwork` state that the freezing logic consults. -/
structure VideoNetworkState where
  fixed_weights : List String
  no_gradient : List String

/-- Model of `VideoNetwork.__init__` lines 29-33: both parameters are
normalized before any membership test happens. -/
def videoNetworkInit (fw ng : StrOrList) : VideoNetworkState :=
  ⟨normalizeParam fw, normalizeParam ng⟩

/-- Model of the membership tests `"encoder" in self.fixed_weights` (Python
`in` on a list is element equality, not substring search). -/
def isFixedWeight (c : String) (st : VideoNetworkState) : Prop :=
  c ∈ st.fixed_weights

/-- Membership test against the normalized `no_gradient` list. -/
def isNoGradient (c : String) (st : VideoNetworkState) : Prop :=
  c ∈ st.no_gradient

/-! ## String constants of the module -/

def kColour : String := "colour"
def kLearnSolid : String := "learn_solid"
def kLearn : String := "learn"
def kData : String := "data"
def kRed : String := "red"
def kAttrMean : String := "attr_mean"
def kAttrStd : String := "attr_std"
def kAttrKl : String := "attr_kl"
def kAttr : String := "attr"
def kOutput : String := "output"
def kPerPixel : String := "per_pixel_reconstruction_loss"
def kReconstruction : String := "reconstruction"

def errUnrecognized (m : String) : String :=
  "Unrecognized background mode: " ++ m ++ "."
def errColour : String := "Invalid RGBA argument"
def errKeyBackground : String := "KeyError: background"
def errSolidShape : String := "assert background.shape[1] == 3"
def errReshape : String := "Cannot reshape: element count mismatch"
def errNoisy : String := "If `noisy` is False, `train_kl` must also be False."

/-! ## VideoNetwork.build_background -/

/-- Configuration and capabilities consulted by `build_background`
(`cfg.background_cfg`, the lazily built background encoder/decoder, the
learnable solid-background logits, the external numeric kernels, and the
per-element noise draw for the reparameterized background latent). -/
structure BackgroundCtx where
  mode : String
  colour : String
  noisy : Bool
  solidLogits : List ℚ
  bgEncoder : Tensor → Tensor
  bgDecoder : Tensor → Tensor
  attr_prior_mean : ℚ
  attr_prior_std : ℚ
  bgNoise : List Nat → ℚ
  softplus : ℚ → ℚ
  sigmoid : ℚ → ℚ
  logF : ℚ → ℚ

/-- Model of `tf.split(t, 2, axis=-1)`: two tensors with the last dimension
halved; the second half reads at an offset along the last axis. -/
def splitHalfLast (t : Tensor) : Tensor × Tensor :=
  (⟨t.shape.set (t.shape.length - 1) (t.shape.getD (t.shape.length - 1) 0 / 2), t.val⟩,
   ⟨t.shape.set (t.shape.length - 1) (t.shape.getD (t.shape.length - 1) 0 / 2),
    fun idx =>
      t.val (idx.set (t.shape.length - 1)
        (idx.getD (t.shape.length - 1) 0 + t.shape.getD (t.shape.length - 1) 0 / 2))⟩)

/-- Elementwise `normal_vae` over tensors, with an explicit noise field. -/
def normalVaeT (logF : ℚ → ℚ) (mean std : Tensor) (pm ps : ℚ)
    (noise : List Nat → ℚ) : Tensor × Tensor :=
  (⟨mean.shape, fun idx => (normal_vae logF (mean.val idx) (std.val idx) pm ps (noise idx)).1⟩,
   ⟨mean.shape, fun idx => (normal_vae logF (mean.val idx) (std.val idx) pm ps (noise idx)).2⟩)

/-- The latent sample of the `learn` background variant (encode, split, derive
std by softplus, zero the std when non-noisy, sample against the prior). -/
def bgSample (ctx : BackgroundCtx) (inp : Tensor) : Tensor :=
  (normalVaeT ctx.logF (splitHalfLast (ctx.bgEncoder inp)).1
    (if ctx.noisy
      then Tensor.mapVals ctx.softplus (splitHalfLast (ctx.bgEncoder inp)).2
      else Tensor.mapVals (fun _ => 0)
        (Tensor.mapVals ctx.softplus (splitHalfLast (ctx.bgEncoder inp)).2))
    ctx.attr_prior_mean ctx.attr_prior_std ctx.bgNoise).1

/-- Decode step of the `learn` background variant: a rank-2 decoder output is a
solid colour (asserted 3-wide, squashed, tiled over `inp.shape[1] × inp.shape[2]`);
otherwise the output is sliced along axes 1 and 2 to `inp.shape[1]` and
`inp.shape[2]` and squashed. -/
def bgDecode (ctx : BackgroundCtx) (inp dec : Tensor) : Except String Tensor :=
  if dec.shape.length = 2 then
    if dec.shape.getD 1 0 = 3 then
      .ok ⟨[dec.shape.getD 0 0, inp.shape.getD 1 0, inp.shape.getD 2 0, 3],
           fun idx => ctx.sigmoid (clip10 (dec.val [idx.getD 0 0, idx.getD 3 0]))⟩
    else .error errSolidShape
  else
    .ok (Tensor.mapVals (fun x => ctx.sigmoid (clip10 x))
      (sliceAxis (sliceAxis dec 1 (inp.shape.getD 1 0)) 2 (inp.shape.getD 2 0)))

/-- Model of `VideoNetwork.build_background` (lines 102-162 of `core.py`):
dispatch on the configured mode string; `suppliedBg` is the entry that `_call`
stored in `self._tensors["background"]` from the input batch (`none` when the
batch carries no background, in which case the `data` branch's dictionary
lookup raises).  The returned tensor is what line 162 records back into
`self._tensors["background"]`; recording of the auxiliary `bg_attr_*`
diagnostics is elided (no claim consults them). -/
def build_background (ctx : BackgroundCtx) (inp : Tensor)
    (suppliedBg : Option Tensor) : Except String Tensor :=
  if ctx.mode = kColour then
    match to_rgb ctx.colour with
    | some rgb => .ok (broadcastChannels rgb inp)
    | none => .error errColour
  else if ctx.mode = kLearnSolid then
    .ok (broadcastChannels (ctx.solidLogits.map (fun x => ctx.sigmoid (10 * x))) inp)
  else if ctx.mode = kLearn then
    bgDecode ctx inp (ctx.bgDecoder (bgSample ctx inp))
  else if ctx.mode = kData then
    match suppliedBg with
    | some bg => .ok bg
    | none => .error errKeyBackground
  else
    .error (errUnrecognized ctx.mode)

/-! ## SimpleVideoVAE -/

/-- Hyperparameters of `SimpleVideoVAE` consulted by the modelled code paths.
`attr_prior_mean`/`attr_prior_std` stand for the current values of the
scheduled scalars; `imgH`/`imgW`/`imgC` are the spatial components of
`obs_shape` (the per-frame height, width and channel count). -/
structure Config where
  A : Nat
  noisy : Bool
  train_kl : Bool
  train_reconstruction : Bool
  attr_prior_mean : ℚ
  attr_prior_std : ℚ
  imgH : Nat
  imgW : Nat
  imgC : Nat

/-- The pluggable capabilities (built once from the configured factories) plus
the external transcendental numeric kernels.  The recurrent cell maps the
current input and state to an output/state pair, as in TensorFlow's RNNCell
interface. -/
structure Modules where
  encoder : Tensor → Tensor
  cell : Vec → Vec → Vec × Vec
  cellZeroState : Vec
  decoder : Vec → Tensor
  softplus : ℚ → ℚ
  sigmoid : ℚ → ℚ
  logF : ℚ → ℚ

/-- Model of the encode stage (lines 225-228): each frame is encoded
independently and identically and the result is flattened to a vector; the
reshape pair around the encoder is the inverse bijection between the
`(batch*frames, …)` and `(batch, frames, …)` layouts, i.e. a per-frame map. -/
def encodeSeq (mods : Modules) (inp : List Tensor) : List Vec :=
  inp.map (fun frame => flattenT (mods.encoder frame))

/-- Model of `tensorflow.python.ops.rnn.dynamic_rnn` for one batch element,
`time_major=False`: the documented semantics of a dynamic RNN is the causal
recurrence `output_t, state_t = cell(input_t, state_(t-1))`, returning the
sequence of outputs and the final state. -/
def dynamicRnn (cell : Vec → Vec → Vec × Vec) : Vec → List Vec → List Vec × Vec
  | state, [] => ([], state)
  | state, x :: xs =>
    ((cell x state).1 :: (dynamicRnn cell (cell x state).2 xs).1,
     (dynamicRnn cell (cell x state).2 xs).2)

/-- The per-frame propagator outputs (line 230-232): `dynamic_rnn` over the
frame encodings, starting from the cell's zero state. -/
def attrSeq0 (mods : Modules) (inp : List Tensor) : List Vec :=
  (dynamicRnn mods.cell mods.cellZeroState (encodeSeq mods inp)).1

/-- First half of `tf.split(attr, 2, axis=-1)` on a flattened frame vector. -/
def halfLo (v : Vec) : Vec := v.take (v.length / 2)

/-- Second half of `tf.split(attr, 2, axis=-1)` on a flattened frame vector. -/
def halfHi (v : Vec) : Vec := v.drop (v.length / 2)

/-- Per-frame std (lines 234-238): softplus of the log-std half, replaced by
`tf.zeros_like` of itself when `noisy` is disabled. -/
def frameStd (cfg : Config) (mods : Modules) (v : Vec) : Vec :=
  if cfg.noisy
    then (halfHi v).map mods.softplus
    else ((halfHi v).map mods.softplus).map (fun _ => (0 : ℚ))

/-- Map with the absolute position in the list (used to address the per-frame
noise draw). -/
def mapWithIdx (f : Nat → α → β) : Nat → List α → List β
  | _, [] => []
  | i, x :: xs => f i x :: mapWithIdx f (i + 1) xs

/-- Elementwise `normal_vae` over a mean vector and a std vector, with the
per-element noise draw; the mean drives the length, matching the common shape
of the two split halves. -/
def vaeVec (logF : ℚ → ℚ) (pm ps : ℚ) (noiseF : Nat → ℚ) :
    Nat → Vec → Vec → List (ℚ × ℚ)
  | _, [], _ => []
  | i, m :: ms, ss =>
    normal_vae logF m (ss.headD 0) pm ps (noiseF i) :: vaeVec logF pm ps noiseF (i + 1) ms ss.tail

/-- Per-frame sample and divergence (line 240): `normal_vae` applied to the
split mean and (possibly zeroed) std of one propagator output. -/
def frameVae (cfg : Config) (mods : Modules) (noiseF : Nat → ℚ) (v : Vec) :
    List (ℚ × ℚ) :=
  vaeVec mods.logF cfg.attr_prior_mean cfg.attr_prior_std noiseF 0 (halfLo v) (frameStd cfg mods v)

/-- The recorded `attr_mean` sequence. -/
def attrMeanSeq (mods : Modules) (inp : List Tensor) : List Vec :=
  (attrSeq0 mods inp).map halfLo

/-- The recorded `attr_std` sequence. -/
def attrStdSeq (cfg : Config) (mods : Modules) (inp : List Tensor) : List Vec :=
  (attrSeq0 mods inp).map (frameStd cfg mods)

/-- The recorded `attr` sequence: per-frame latent samples (`noise t i` is the
standard-normal draw for element `i` of frame `t`, deterministic given the
seed). -/
def attrSampleSeq (cfg : Config) (mods : Modules) (noise : Nat → Nat → ℚ)
    (inp : List Tensor) : List Vec :=
  mapWithIdx (fun t v => (frameVae cfg mods (noise t) v).map Prod.fst) 0 (attrSeq0 mods inp)

/-- The recorded `attr_kl` sequence: per-frame elementwise divergences. -/
def attrKlSeq (cfg : Config) (mods : Modules) (noise : Nat → Nat → ℚ)
    (inp : List Tensor) : List Vec :=
  mapWithIdx (fun t v => (frameVae cfg mods (noise t) v).map Prod.snd) 0 (attrSeq0 mods inp)

/-- Decode then crop (lines 246-249): the decoder's native rank-3 frame output
is sliced to at most the configured spatial size along its first two axes. -/
def decodeFrameRaw (cfg : Config) (mods : Modules) (a : Vec) : Tensor :=
  sliceAxis (sliceAxis (mods.decoder a) 0 cfg.imgH) 1 cfg.imgW

/-- The cropped decoder outputs, one per frame. -/
def decodedSeq (cfg : Config) (mods : Modules) (noise : Nat → Nat → ℚ)
    (inp : List Tensor) : List Tensor :=
  (attrSampleSeq cfg mods noise inp).map (decodeFrameRaw cfg mods)

/-- The declared per-frame output shape `obs_shape[1:]`. -/
def obsShape (cfg : Config) : List Nat := [cfg.imgH, cfg.imgW, cfg.imgC]

/-- Per-frame reconstruction (lines 250-252): reshape the cropped decoder
output to the declared frame shape (the caller has checked the element count,
which is what `tf.reshape` demands) and squash through clip-then-sigmoid. -/
def outFrame (cfg : Config) (mods : Modules) (d : Tensor) : Tensor :=
  Tensor.mapVals (fun x => mods.sigmoid (clip10 x)) (reshapeVal d (obsShape cfg))

/-- The reconstruction video. -/
def outputSeq (cfg : Config) (mods : Modules) (noise : Nat → Nat → ℚ)
    (inp : List Tensor) : List Tensor :=
  (decodedSeq cfg mods noise inp).map (outFrame cfg mods)

/-- The recorded `per_pixel_reconstruction_loss` video (line 261):
`xent_loss(pred=reconstruction, label=inp)` elementwise. -/
def perPixelSeq (cfg : Config) (mods : Modules) (noise : Nat → Nat → ℚ)
    (inp : List Tensor) : List Tensor :=
  List.zipWith (fun o i => Tensor.zipVals (xent_loss mods.logF) o i)
    (outputSeq cfg mods noise inp) inp

/-- Sum of all entries of a tensor. -/
def tensorSum (t : Tensor) : ℚ := (flattenT t).sum

/-- Model of `tf_mean_sum` on a per-frame vector sequence: mean over the batch
(a single element here) of the sum over all remaining axes. -/
def meanSumVecs (vs : List Vec) : ℚ := (vs.map (fun v => v.sum)).sum

/-- Model of `tf_mean_sum` on a video: mean over the batch (a single element
here) of the sum over all remaining axes. -/
def meanSumTensors (ts : List Tensor) : ℚ := (ts.map tensorSum).sum

/-- A value stored in the `_tensors` dictionary (per-frame vector sequences or
videos). -/
inductive TVal where
  | seq (v : List Vec)
  | vid (v : List Tensor)

/-- Association-list lookup with string keys; prepending an entry shadows an
older entry with the same key, matching Python dictionary update. -/
def tlookup (k : String) : List (String × TVal) → Option TVal
  | [] => none
  | (k2, v) :: rest => if k = k2 then some v else tlookup k rest

/-- The `_tensors` entries written unconditionally by `build_representation`:
the four attribute tensors of line 242 and the `output` of line 253, on top of
whatever `_call` had already stored (`t0`). -/
def tensorsBase (cfg : Config) (mods : Modules) (noise : Nat → Nat → ℚ)
    (inp : List Tensor) (t0 : List (String × TVal)) : List (String × TVal) :=
  (kOutput, TVal.vid (outputSeq cfg mods noise inp)) ::
  (kAttr, TVal.seq (attrSampleSeq cfg mods noise inp)) ::
  (kAttrKl, TVal.seq (attrKlSeq cfg mods noise inp)) ::
  (kAttrStd, TVal.seq (attrStdSeq cfg mods inp)) ::
  (kAttrMean, TVal.seq (attrMeanSeq mods inp)) :: t0

/-- The full `_tensors` dictionary at the end of `build_representation`; the
`per_pixel_reconstruction_loss` entry is only written when
`train_reconstruction` holds (line 261). -/
def tensorsMap (cfg : Config) (mods : Modules) (noise : Nat → Nat → ℚ)
    (inp : List Tensor) (t0 : List (String × TVal)) : List (String × TVal) :=
  if cfg.train_reconstruction
    then (kPerPixel, TVal.vid (perPixelSeq cfg mods noise inp)) ::
      tensorsBase cfg mods noise inp t0
    else tensorsBase cfg mods noise inp t0

/-- The loss dictionary (lines 257-262), starting from the empty `self.losses`
set up by `_call` (line 89): the `attr_kl` entry is present exactly when
`train_kl` holds, the `reconstruction` entry exactly when
`train_reconstruction` holds. -/
def lossList (cfg : Config) (mods : Modules) (noise : Nat → Nat → ℚ)
    (inp : List Tensor) : List (String × ℚ) :=
  (if cfg.train_kl
    then [(kAttrKl, meanSumVecs (attrKlSeq cfg mods noise inp))] else [])
  ++ (if cfg.train_reconstruction
    then [(kReconstruction, meanSumTensors (perPixelSeq cfg mods noise inp))] else [])

/-- Everything `build_representation` leaves behind for one forward pass. -/
structure RepOut where
  attr_mean : List Vec
  attr_std : List Vec
  attr_kl : List Vec
  attr : List Vec
  output : List Tensor
  tensors : List (String × TVal)
  losses : List (String × ℚ)

/-- The successful result of one `build_representation` pass. -/
def mkRepOut (cfg : Config) (mods : Modules) (noise : Nat → Nat → ℚ)
    (inp : List Tensor) (t0 : List (String × TVal)) : RepOut :=
  ⟨attrMeanSeq mods inp, attrStdSeq cfg mods inp, attrKlSeq cfg mods noise inp,
   attrSampleSeq cfg mods noise inp, outputSeq cfg mods noise inp,
   tensorsMap cfg mods noise inp t0, lossList cfg mods noise inp⟩

/-- Model of `SimpleVideoVAE.build_representation` (lines 205-262).  The only
fallible step in the modelled graph is the `tf.reshape` of line 250, which
demands that the cropped decoder output of every frame have exactly
`imgH * imgW * imgC` elements (TensorFlow tensors are rectangular, so the
per-frame check equals the whole-batch element-count check). -/
def buildRepresentation (cfg : Config) (mods : Modules) (inp : List Tensor)
    (noise : Nat → Nat → ℚ) (t0 : List (String × TVal)) : Except String RepOut :=
  if (decodedSeq cfg mods noise inp).all
      (fun d => numel d = cfg.imgH * cfg.imgW * cfg.imgC)
    then .ok (mkRepOut cfg mods noise inp t0)
    else .error errReshape

/-- Model of `SimpleVideoVAE.__init__` (lines 192-203): after resolving the
scheduled scalars, the constructor rejects the contradictory configuration
`noisy=False, train_kl=True` by raising; it performs no encoding, propagation,
sampling or decoding (those all live in `build_representation`). -/
def svvInit (cfg : Config) : Except String Unit :=
  if !cfg.noisy && cfg.train_kl then .error errNoisy else .ok ()

/-- One full forward pass: construct the model, then run `_call` /
`build_representation` on a batch element. -/
def svvRun (cfg : Config) (mods : Modules) (inp : List Tensor)
    (noise : Nat → Nat → ℚ) (t0 : List (String × TVal)) : Except String RepOut :=
  (svvInit cfg).bind (fun _ => buildRepresentation cfg mods inp noise t0)

/-- The loss dictionary of a forward pass; a failed pass yields no losses. -/
def lossesOf : Except String RepOut → List (String × ℚ)
  | .ok r => r.losses
  | .error _ => []

/-- The tensor dictionary of a forward pass, when the pass succeeded. -/
def tensorsOf : Except String RepOut → Option (List (String × TVal))
  | .ok r => some r.tensors
  | .error _ => none

/-- Whether a forward pass succeeded. -/
def isOkE (e : Except String RepOut) : Bool :=
  match e with
  | .ok _ => true
  | .error _ => false

/-- Replace only the `train_kl` flag of a configuration. -/
def withTrainKl (cfg : Config) (b : Bool) : Config :=
  ⟨cfg.A, cfg.noisy, b, cfg.train_reconstruction, cfg.attr_prior_mean,
   cfg.attr_prior_std, cfg.imgH, cfg.imgW, cfg.imgC⟩

/-- An empty forward-pass result, used as the fallback of `okValue`. -/
def repOutDefault : RepOut := ⟨[], [], [], [], [], [], []⟩

/-- The payload of a successful forward pass. -/
def okValue (e : Except String RepOut) : RepOut :=
  match e with
  | .ok r => r
  | .error _ => repOutDefault

/-! ## Concrete fixtures (used to instantiate the theorems) -/

def sEncoder : String := "encoder"
def sEnc : String := "enc"
def sEncDec : String := "encoder decoder"
def sFoo : String := "foo"

def frameA : Tensor := ⟨[1, 1, 1], fun _ => 0⟩
def frameB : Tensor := ⟨[1, 1, 1], fun _ => 1⟩
def frameC : Tensor := ⟨[1, 1, 1], fun _ => 2⟩
def frame22 : Tensor := ⟨[2, 2, 1], fun _ => 0⟩
def inpR5 : Tensor := ⟨[1, 1, 1, 1, 3], fun _ => 1/2⟩
def bgW : Tensor := ⟨[1, 2, 3], fun _ => 7⟩
def rgbRed : List ℚ := [1, 0, 0]

def noiseW : Nat → Nat → ℚ := fun _ _ => 0

def modsW : Modules :=
  ⟨fun t => t, fun x s => (x, s), [], fun _ => ⟨[1, 1, 1], fun _ => 0⟩, id, id, id⟩

def modsC4w : Modules :=
  ⟨fun t => t, fun x s => (x, s), [], fun _ => ⟨[2, 3, 1], fun _ => 0⟩, id, id, id⟩

def cfgC1w : Config := ⟨1, false, true, false, 0, 1, 1, 1, 1⟩
def cfgC2w : Config := ⟨1, false, false, false, 0, 1, 1, 1, 1⟩
def cfgC3w : Config := ⟨1, true, false, false, 0, 1, 1, 1, 1⟩
def cfgC4w : Config := ⟨1, true, false, false, 0, 1, 2, 2, 1⟩
def cfgC5w : Config := ⟨1, false, false, false, 0, 1, 1, 1, 1⟩
def cfgC10w : Config := ⟨1, true, true, false, 0, 1, 1, 1, 1⟩

def inp1W : List Tensor := [frameA, frameB]
def inp2W : List Tensor := [frameA, frameC]

def r1W : RepOut := okValue (buildRepresentation cfgC3w modsW inp1W noiseW [])
def r2W : RepOut := okValue (buildRepresentation cfgC3w modsW inp2W noiseW [])
def rW10 : RepOut := okValue (svvRun cfgC10w modsW [frameA] noiseW [])

def ctxFoo : BackgroundCtx :=
  ⟨sFoo, kRed, false, [], fun t => t, fun t => t, 0, 1, fun _ => 0, id, id, id⟩
def ctxData : BackgroundCtx :=
  ⟨kData, kRed, false, [], fun t => t, fun t => t, 0, 1, fun _ => 0, id, id, id⟩
def ctxColourRed : BackgroundCtx :=
  ⟨kColour, kRed, false, [], fun t => t, fun t => t, 0, 1, fun _ => 0, id, id, id⟩

/-! ## Helper lemmas -/

lemma vaeVec_fst_of_zero (logF : ℚ → ℚ) (pm ps : ℚ) (noiseF : Nat → ℚ) :
    ∀ (ms : Vec) (i : Nat) (ss : Vec), (∀ x ∈ ss, x = 0) →
      (vaeVec logF pm ps noiseF i ms ss).map Prod.fst = ms := by
  intro ms
  induction ms with
  | nil => intro i ss _; simp [vaeVec]
  | cons m ms ih =>
    intro i ss h
    cases ss with
    | nil =>
      simp [vaeVec, normal_vae, ih (i + 1) [] (by simp)]
    | cons x xs =>
      have hx : x = 0 := h x (List.mem_cons_self x xs)
      subst hx
      simp [vaeVec, normal_vae, ih (i + 1) xs (fun y hy => h y (List.mem_cons_of_mem _ hy))]

lemma mapWithIdx_eq_map (f : Nat → α → β) (g : α → β) (h : ∀ i x, f i x = g x) :
    ∀ (i : Nat) (xs : List α), mapWithIdx f i xs = xs.map g := by
  intro i xs
  induction xs generalizing i with
  | nil => rfl
  | cons x xs ih => simp [mapWithIdx, h, ih]

lemma frameStd_all_zero (cfg : Config) (mods : Modules) (v : Vec)
    (hn : cfg.noisy = false) : ∀ x ∈ frameStd cfg mods v, x = 0 := by
  intro x hx
  simp [frameStd, hn] at hx
  exact hx.2.symm

/-! ## Claims -/

/-- Claim C5: for any valid inputs with std equal to zero, the reparameterized
sampling primitive returns a sample exactly equal to the mean; moreover on the
non-noisy path (where `build_representation` forces the std sequence to
all-zeros before sampling, lines 237-240) the whole per-frame sample sequence
equals the per-frame mean sequence. -/
theorem normal_vae_c5 :
    (∀ (logF : ℚ → ℚ) (mean pm ps n : ℚ), (normal_vae logF mean 0 pm ps n).1 = mean)
    ∧ ∀ (cfg : Config) (mods : Modules) (noise : Nat → Nat → ℚ) (inp : List Tensor),
        cfg.noisy = false → attrSampleSeq cfg mods noise inp = attrMeanSeq mods inp := by
  constructor
  · intro logF mean pm ps n
    simp [normal_vae]
  · intro cfg mods noise inp hn
    unfold attrSampleSeq attrMeanSeq
    refine mapWithIdx_eq_map _ _ (fun t v => ?_) 0 (attrSeq0 mods inp)
    unfold frameVae
    exact vaeVec_fst_of_zero mods.logF cfg.attr_prior_mean cfg.attr_prior_std (noise t)
      (halfLo v) 0 (frameStd cfg mods v) (frameStd_all_zero cfg mods v hn)

/-- Witness for C5: a concrete non-noisy run where the sample sequence is the
mean sequence. -/
theorem normal_vae_c5_witness :
    attrSampleSeq cfgC5w modsW noiseW inp1W = attrMeanSeq modsW inp1W :=
  normal_vae_c5.2 cfgC5w modsW noiseW inp1W rfl

/-- Claim C1: constructing a `SimpleVideoVAE` with `noisy=False` and
`train_kl=True` raises a configuration error in the constructor; the whole
forward pass fails with that same error for every module set and every input,
i.e. before any encoding, propagation, sampling or decoding happens. -/
theorem svv_c1 (cfg : Config) (hn : cfg.noisy = false) (hk : cfg.train_kl = true) :
    svvInit cfg = .error errNoisy
    ∧ ∀ (mods : Modules) (inp : List Tensor) (noise : Nat → Nat → ℚ)
        (t0 : List (String × TVal)), svvRun cfg mods inp noise t0 = .error errNoisy := by
  have h1 : svvInit cfg = .error errNoisy := by simp [svvInit, hn, hk]
  exact ⟨h1, fun mods inp noise t0 => by simp [svvRun, h1, Except.bind]⟩

/-- Witness for C1 at a concrete configuration. -/
theorem svv_c1_witness : svvInit cfgC1w = Except.error errNoisy :=
  (svv_c1 cfgC1w rfl rfl).1

/-- Claim C9: a string-valued `fixed_weights` or `no_gradient` parameter is
split on whitespace into a token list in the constructor, so the later
membership tests are whole-token tests: a component name is frozen exactly
when it is one of the whitespace-separated tokens, and a proper substring of a
token (such as `enc` inside `encoder decoder`) is not frozen. -/
theorem videoNetwork_c9 :
    (∀ (s : String) (ng : StrOrList) (c : String),
        isFixedWeight c (videoNetworkInit (StrOrList.str s) ng) ↔ c ∈ pySplit s)
    ∧ (∀ (fw : StrOrList) (s c : String),
        isNoGradient c (videoNetworkInit fw (StrOrList.str s)) ↔ c ∈ pySplit s)
    ∧ isFixedWeight sEncoder (videoNetworkInit (StrOrList.str sEncDec) (StrOrList.list []))
    ∧ ¬ isFixedWeight sEnc (videoNetworkInit (StrOrList.str sEncDec) (StrOrList.list [])) := by
  refine ⟨fun s ng c => Iff.rfl, fun fw s c => Iff.rfl, ?_, ?_⟩
  · show sEncoder ∈ normalizeParam (StrOrList.str sEncDec)
    decide
  · show sEnc ∉ normalizeParam (StrOrList.str sEncDec)
    decide

/-- Claim C6: an unrecognized background mode makes `build_background` raise
(fail fast) instead of producing a background. -/
theorem build_background_c6 (ctx : BackgroundCtx) (inp : Tensor) (bg? : Option Tensor)
    (h1 : ctx.mode ≠ kColour) (h2 : ctx.mode ≠ kLearnSolid)
    (h3 : ctx.mode ≠ kLearn) (h4 : ctx.mode ≠ kData) :
    build_background ctx inp bg? = .error (errUnrecognized ctx.mode) := by
  simp [build_background, h1, h2, h3, h4]

/-- Witness for C6 at the concrete unrecognized mode string `foo`. -/
theorem build_background_c6_witness :
    build_background ctxFoo frameA none = Except.error (errUnrecognized ctxFoo.mode) :=
  build_background_c6 ctxFoo frameA none (by decide) (by decide) (by decide) (by decide)

/-- Claim C7: in background mode `data`, the background produced (and recorded
at line 162) is exactly the externally supplied tensor, unchanged. -/
theorem build_background_c7 (ctx : BackgroundCtx) (hm : ctx.mode = kData)
    (inp bg : Tensor) : build_background ctx inp (some bg) = .ok bg := by
  simp [build_background, hm, kData, kColour, kLearnSolid, kLearn]

/-- Witness for C7 at a concrete supplied background tensor. -/
theorem build_background_c7_witness :
    build_background ctxData frameA (some bgW) = Except.ok bgW :=
  build_background_c7 ctxData rfl frameA bgW

/-- Claim C8: in background mode `colour` with configured colour `red`, for
any input shape of video rank, the produced background has the input's shape
and equals `(1, 0, 0)` along the channel (last) dimension at every pixel of
every frame of every batch element. -/
theorem build_background_c8 (ctx : BackgroundCtx) (inp : Tensor)
    (hm : ctx.mode = kColour) (hc : ctx.colour = kRed) (hr : inp.shape.length = 5) :
    build_background ctx inp none = .ok (broadcastChannels rgbRed inp)
    ∧ (broadcastChannels rgbRed inp).shape = inp.shape
    ∧ ∀ b f i j : Nat,
        (broadcastChannels rgbRed inp).val [b, f, i, j, 0] = 1
        ∧ (broadcastChannels rgbRed inp).val [b, f, i, j, 1] = 0
        ∧ (broadcastChannels rgbRed inp).val [b, f, i, j, 2] = 0 := by
  refine ⟨?_, rfl, ?_⟩
  · simp [build_background, hm, hc, kRed, to_rgb, rgbRed]
  · intro b f i j
    refine ⟨?_, ?_, ?_⟩ <;> simp [broadcastChannels, hr, rgbRed, List.getD]

/-- Witness for C8 on a concrete rank-5 input. -/
theorem build_background_c8_witness :
    build_background ctxColourRed inpR5 none = Except.ok (broadcastChannels rgbRed inpR5) :=
  (build_background_c8 ctxColourRed inpR5 rfl rfl rfl).1

/-! ## Loss-dictionary claims -/

lemma lossesOf_run (cfg : Config) (mods : Modules) (inp : List Tensor)
    (noise : Nat → Nat → ℚ) (t0 : List (String × TVal)) :
    lossesOf (svvRun cfg mods inp noise t0) = []
    ∨ lossesOf (svvRun cfg mods inp noise t0) = lossList cfg mods noise inp := by
  unfold svvRun svvInit
  by_cases h1 : (!cfg.noisy && cfg.train_kl) = true
  · left
    simp [h1, lossesOf, Except.bind]
  · simp only [Bool.not_eq_true] at h1
    unfold buildRepresentation
    by_cases h2 : ((decodedSeq cfg mods noise inp).all
        (fun d => numel d = cfg.imgH * cfg.imgW * cfg.imgC)) = true
    · right
      simp [h1, h2, lossesOf, Except.bind, mkRepOut]
    · simp only [Bool.not_eq_true] at h2
      left
      simp [h1, h2, lossesOf, Except.bind]

/-- Claim C2: in every forward pass, `train_kl=False` keeps the
divergence-named key out of the loss dictionary, `train_reconstruction=False`
keeps the reconstruction-named key out, and with both flags off the loss
dictionary is empty (lines 89 and 257-262). -/
theorem svv_c2 (cfg : Config) (mods : Modules) (inp : List Tensor)
    (noise : Nat → Nat → ℚ) (t0 : List (String × TVal)) :
    (cfg.train_kl = false →
      ∀ p ∈ lossesOf (svvRun cfg mods inp noise t0), p.1 ≠ kAttrKl)
    ∧ (cfg.train_reconstruction = false →
      ∀ p ∈ lossesOf (svvRun cfg mods inp noise t0), p.1 ≠ kReconstruction)
    ∧ (cfg.train_kl = false → cfg.train_reconstruction = false →
      lossesOf (svvRun cfg mods inp noise t0) = []) := by
  have hkl : kReconstruction ≠ kAttrKl := by decide
  have hrk : kAttrKl ≠ kReconstruction := by decide
  rcases lossesOf_run cfg mods inp noise t0 with h | h
  · simp [h]
  · rw [h]
    unfold lossList
    refine ⟨?_, ?_, ?_⟩
    · intro hk p hp
      rw [hk] at hp
      simp only [Bool.false_eq_true, if_false, List.nil_append] at hp
      cases htr : cfg.train_reconstruction with
      | false => rw [htr] at hp; simp at hp
      | true =>
        rw [htr] at hp
        simp only [if_true, List.mem_singleton] at hp
        rw [hp]
        exact hkl
    · intro htr p hp
      rw [htr] at hp
      simp only [Bool.false_eq_true, if_false, List.append_nil] at hp
      cases hk : cfg.train_kl with
      | false => rw [hk] at hp; simp at hp
      | true =>
        rw [hk] at hp
        simp only [if_true, List.mem_singleton] at hp
        rw [hp]
        exact hrk
    · intro hk htr
      rw [hk, htr]
      simp

/-- Witness for C2: a concrete pass with both flags off has an empty loss
dictionary. -/
theorem svv_c2_witness : lossesOf (svvRun cfgC2w modsW [] noiseW []) = [] :=
  (svv_c2 cfgC2w modsW [] noiseW []).2.2 rfl rfl

/-! ## Unconditional tensor recording -/

lemma tensorsMap_withTrainKl (cfg : Config) (b : Bool) (mods : Modules)
    (noise : Nat → Nat → ℚ) (inp : List Tensor) (t0 : List (String × TVal)) :
    tensorsMap (withTrainKl cfg b) mods noise inp t0 = tensorsMap cfg mods noise inp t0 := rfl

lemma buildRep_withTrainKl_tensors (cfg : Config) (b : Bool) (mods : Modules)
    (inp : List Tensor) (noise : Nat → Nat → ℚ) (t0 : List (String × TVal)) :
    tensorsOf (buildRepresentation (withTrainKl cfg b) mods inp noise t0)
      = tensorsOf (buildRepresentation cfg mods inp noise t0) := by
  unfold buildRepresentation
  have hcond : ((decodedSeq (withTrainKl cfg b) mods noise inp).all
        (fun d => numel d = (withTrainKl cfg b).imgH * (withTrainKl cfg b).imgW
          * (withTrainKl cfg b).imgC))
      = ((decodedSeq cfg mods noise inp).all
        (fun d => numel d = cfg.imgH * cfg.imgW * cfg.imgC)) := rfl
  rw [hcond]
  by_cases h : ((decodedSeq cfg mods noise inp).all
      (fun d => numel d = cfg.imgH * cfg.imgW * cfg.imgC)) = true
  · simp [h, tensorsOf, mkRepOut, tensorsMap_withTrainKl]
  · simp only [Bool.not_eq_true] at h
    simp [h, tensorsOf]

/-- Claim C10: the four attribute tensors (`attr_mean`, `attr_std`, `attr_kl`,
`attr`) are computed and recorded in the tensor dictionary on every successful
forward pass, whatever the flags are; flipping `train_kl` changes nothing in
the recorded tensor dictionary (it gates only the loss entry, lines 242 and
257-258). -/
theorem svv_c10 (cfg : Config) (mods : Modules) (inp : List Tensor)
    (noise : Nat → Nat → ℚ) (t0 : List (String × TVal)) :
    (cfg.noisy = true →
      tensorsOf (svvRun (withTrainKl cfg false) mods inp noise t0)
        = tensorsOf (svvRun (withTrainKl cfg true) mods inp noise t0))
    ∧ ∀ r : RepOut, svvRun cfg mods inp noise t0 = .ok r →
        tlookup kAttrMean r.tensors = some (TVal.seq r.attr_mean)
        ∧ tlookup kAttrStd r.tensors = some (TVal.seq r.attr_std)
        ∧ tlookup kAttrKl r.tensors = some (TVal.seq r.attr_kl)
        ∧ tlookup kAttr r.tensors = some (TVal.seq r.attr) := by
  constructor
  · intro hn
    have hi : ∀ b, svvInit (withTrainKl cfg b) = .ok () := by
      intro b
      simp [svvInit, withTrainKl, hn]
    unfold svvRun
    rw [hi false, hi true]
    simp only [Except.bind]
    rw [buildRep_withTrainKl_tensors cfg false mods inp noise t0,
        buildRep_withTrainKl_tensors cfg true mods inp noise t0]
  · intro r h
    have e1 : kAttrMean ≠ kPerPixel := by decide
    have e2 : kAttrMean ≠ kOutput := by decide
    have e3 : kAttrMean ≠ kAttr := by decide
    have e4 : kAttrMean ≠ kAttrKl := by decide
    have e5 : kAttrMean ≠ kAttrStd := by decide
    have f1 : kAttrStd ≠ kPerPixel := by decide
    have f2 : kAttrStd ≠ kOutput := by decide
    have f3 : kAttrStd ≠ kAttr := by decide
    have f4 : kAttrStd ≠ kAttrKl := by decide
    have g1 : kAttrKl ≠ kPerPixel := by decide
    have g2 : kAttrKl ≠ kOutput := by decide
    have g3 : kAttrKl ≠ kAttr := by decide
    have i1 : kAttr ≠ kPerPixel := by decide
    have i2 : kAttr ≠ kOutput := by decide
    unfold svvRun at h
    cases hinit : svvInit cfg with
    | error e => rw [hinit] at h; simp [Except.bind] at h
    | ok u =>
      rw [hinit] at h
      simp only [Except.bind] at h
      unfold buildRepresentation at h
      by_cases hc : ((decodedSeq cfg mods noise inp).all
          (fun d => numel d = cfg.imgH * cfg.imgW * cfg.imgC)) = true
      · rw [if_pos hc] at h
        injection h with h
        subst h
        unfold mkRepOut tensorsMap
        cases htr : cfg.train_reconstruction with
        | false =>
          simp [htr, tensorsBase, tlookup, e2, e3, e4, e5, f2, f3, f4, g2, g3, i2]
        | true =>
          simp [htr, tensorsBase, tlookup, e1, e2, e3, e4, e5, f1, f2, f3, f4,
            g1, g2, g3, i1, i2]
      · rw [if_neg hc] at h
        simp at h

/-- Witness for C10: a concrete noisy run whose recorded tensors do not depend
on `train_kl`, and whose tensor dictionary holds the computed `attr_kl`. -/
theorem svv_c10_witness :
    tensorsOf (svvRun (withTrainKl cfgC10w false) modsW [frameA] noiseW [])
      = tensorsOf (svvRun (withTrainKl cfgC10w true) modsW [frameA] noiseW [])
    ∧ tlookup kAttrKl rW10.tensors = some (TVal.seq rW10.attr_kl) :=
  ⟨(svv_c10 cfgC10w modsW [frameA] noiseW []).1 rfl,
   ((svv_c10 cfgC10w modsW [frameA] noiseW []).2 rW10 rfl).2.2.1⟩

/-! ## Causality of the recurrent propagation -/

lemma take_of_map (f : α → β) (t : Nat) (xs ys : List α)
    (h : xs.take t = ys.take t) : (xs.map f).take t = (ys.map f).take t := by
  rw [← List.map_take, ← List.map_take, h]

lemma dynamicRnn_take (cell : Vec → Vec → Vec × Vec) :
    ∀ (t : Nat) (st : Vec) (xs ys : List Vec), xs.take t = ys.take t →
      ((dynamicRnn cell st xs).1).take t = ((dynamicRnn cell st ys).1).take t := by
  intro t
  induction t with
  | zero => intro st xs ys _; simp
  | succ n ih =>
    intro st xs ys h
    cases xs with
    | nil =>
      cases ys with
      | nil => rfl
      | cons y ys => simp at h
    | cons x xs =>
      cases ys with
      | nil => simp at h
      | cons y ys =>
        simp only [List.take_succ_cons, List.cons.injEq] at h
        obtain ⟨rfl, h2⟩ := h
        simp only [dynamicRnn, List.take_succ_cons, List.cons.injEq]
        exact ⟨by trivial, ih (cell x st).2 xs ys h2⟩

lemma mapWithIdx_take (f : Nat → α → β) :
    ∀ (t i : Nat) (xs ys : List α), xs.take t = ys.take t →
      (mapWithIdx f i xs).take t = (mapWithIdx f i ys).take t := by
  intro t
  induction t with
  | zero => intro i xs ys _; simp
  | succ n ih =>
    intro i xs ys h
    cases xs with
    | nil =>
      cases ys with
      | nil => rfl
      | cons y ys => simp at h
    | cons x xs =>
      cases ys with
      | nil => simp at h
      | cons y ys =>
        simp only [List.take_succ_cons, List.cons.injEq] at h
        obtain ⟨rfl, h2⟩ := h
        simp only [mapWithIdx, List.take_succ_cons, List.cons.injEq]
        exact ⟨by trivial, ih (i + 1) xs ys h2⟩

lemma attrSeq0_take (mods : Modules) (t : Nat) (inp1 inp2 : List Tensor)
    (h : inp1.take t = inp2.take t) :
    (attrSeq0 mods inp1).take t = (attrSeq0 mods inp2).take t := by
  unfold attrSeq0 encodeSeq
  exact dynamicRnn_take mods.cell t mods.cellZeroState _ _ (take_of_map _ t _ _ h)

/-- Claim C3: causality of the recurrent propagation — two runs on inputs that
agree on the first `t` frames (with the same modules, configuration and noise
seed) produce identical propagator-derived parameter sequences (`attr_mean`,
`attr_std`, `attr_kl`, `attr`) and identical reconstructions on those first
`t` frames. -/
theorem svv_c3 (cfg : Config) (mods : Modules) (noise : Nat → Nat → ℚ)
    (t0a t0b : List (String × TVal)) (inp1 inp2 : List Tensor) (t : Nat)
    (r1 r2 : RepOut)
    (hpre : inp1.take t = inp2.take t)
    (h1 : buildRepresentation cfg mods inp1 noise t0a = .ok r1)
    (h2 : buildRepresentation cfg mods inp2 noise t0b = .ok r2) :
    r1.attr_mean.take t = r2.attr_mean.take t
    ∧ r1.attr_std.take t = r2.attr_std.take t
    ∧ r1.attr_kl.take t = r2.attr_kl.take t
    ∧ r1.attr.take t = r2.attr.take t
    ∧ r1.output.take t = r2.output.take t := by
  have ha := attrSeq0_take mods t inp1 inp2 hpre
  unfold buildRepresentation at h1 h2
  by_cases hc1 : ((decodedSeq cfg mods noise inp1).all
      (fun d => numel d = cfg.imgH * cfg.imgW * cfg.imgC)) = true
  · rw [if_pos hc1] at h1
    by_cases hc2 : ((decodedSeq cfg mods noise inp2).all
        (fun d => numel d = cfg.imgH * cfg.imgW * cfg.imgC)) = true
    · rw [if_pos hc2] at h2
      injection h1 with h1
      injection h2 with h2
      subst h1
      subst h2
      unfold mkRepOut
      refine ⟨?_, ?_, ?_, ?_, ?_⟩
      · exact take_of_map halfLo t _ _ ha
      · exact take_of_map (frameStd cfg mods) t _ _ ha
      · exact mapWithIdx_take _ t 0 _ _ ha
      · exact mapWithIdx_take _ t 0 _ _ ha
      · unfold outputSeq decodedSeq
        exact take_of_map (outFrame cfg mods) t _ _
          (take_of_map (decodeFrameRaw cfg mods) t _ _ (mapWithIdx_take _ t 0 _ _ ha))
    · rw [if_neg hc2] at h2
      exact Except.noConfusion h2
  · rw [if_neg hc1] at h1
    exact Except.noConfusion h1

/-- Witness for C3: two concrete 2-frame videos sharing the first frame give
the same first-frame latent sample. -/
theorem svv_c3_witness : r1W.attr.take 1 = r2W.attr.take 1 :=
  (svv_c3 cfgC3w modsW noiseW [] [] inp1W inp2W 1 r1W r2W rfl rfl rfl).2.2.2.1

/-! ## Reconstruction shape: crop only, no padding -/

/-- Counterexample to claim C4 as stated: with a decoder whose native output
(`1×1×1`) is smaller than the input frames (`2×2×1`), the pipeline does not
pad: the reshape of line 250 fails on the element-count mismatch, so no
reconstruction is produced at all. -/
theorem svv_c4_counterexample :
    buildRepresentation cfgC4w modsW [frame22] noiseW [] = Except.error errReshape := rfl

/-- Amended claim C4: when the decoder's native frame output is rank 3 with
height and width at least the input's and the input's channel count, the pass
succeeds and every reconstruction frame has spatial dimensions exactly equal
to the input frames' (cropping compensates for a larger native size); smaller
native sizes instead make the pass fail (see the counterexample) — the code
never pads. -/
theorem svv_c4 (cfg : Config) (mods : Modules) (inp : List Tensor)
    (noise : Nat → Nat → ℚ) (t0 : List (String × TVal))
    (hdec : ∀ v : Vec, (mods.decoder v).shape.length = 3
      ∧ cfg.imgH ≤ (mods.decoder v).shape.getD 0 0
      ∧ cfg.imgW ≤ (mods.decoder v).shape.getD 1 0
      ∧ (mods.decoder v).shape.getD 2 0 = cfg.imgC) :
    isOkE (buildRepresentation cfg mods inp noise t0) = true
    ∧ ∀ r : RepOut, buildRepresentation cfg mods inp noise t0 = .ok r →
        ∀ img ∈ r.output, img.shape = obsShape cfg := by
  have hnum : ∀ v : Vec, numel (decodeFrameRaw cfg mods v)
      = cfg.imgH * cfg.imgW * cfg.imgC := by
    intro v
    obtain ⟨h3, hH, hW, hC⟩ := hdec v
    obtain ⟨a, b, c, habc⟩ := List.length_eq_three.mp h3
    rw [habc] at hH hW hC
    simp only [List.getD_cons_zero, List.getD_cons_succ] at hH hW hC
    unfold decodeFrameRaw sliceAxis numel
    rw [habc]
    simp only [List.set_cons_zero, List.set_cons_succ, List.getD_cons_zero,
      List.getD_cons_succ]
    rw [min_eq_right hH, min_eq_right hW, hC]
    simp [List.prod_cons]
    ring
  have hcond : ((decodedSeq cfg mods noise inp).all
      (fun d => numel d = cfg.imgH * cfg.imgW * cfg.imgC)) = true := by
    rw [List.all_eq_true]
    intro d hd
    unfold decodedSeq at hd
    obtain ⟨v, _, rfl⟩ := List.mem_map.mp hd
    exact decide_eq_true (hnum v)
  constructor
  · unfold buildRepresentation
    rw [if_pos hcond]
    rfl
  · intro r h
    unfold buildRepresentation at h
    rw [if_pos hcond] at h
    injection h with h
    subst h
    intro img himg
    unfold mkRepOut outputSeq at himg
    obtain ⟨d, _, rfl⟩ := List.mem_map.mp himg
    rfl

/-- Witness for the amended C4: a decoder with a strictly larger native output
(`2×3×1` against `2×2×1` frames) yields a successful pass. -/
theorem svv_c4_witness :
    isOkE (buildRepresentation cfgC4w modsC4w [frame22] noiseW []) = true :=
  (svv_c4 cfgC4w modsC4w [frame22] noiseW []
    (fun v => ⟨rfl, by simp [cfgC4w, modsC4w], by simp [cfgC4w, modsC4w], rfl⟩)).1

end Silot
